import Mathlib

/-!
Shallow embedding of the tool-dispatch and conversation core of the
RapidataAI/human-use repository (files `mcp_client.py` and `app.py`),
together with theorems settling the frozen claims about it.

Conventions of the embedding:
* Python strings used as identifiers/names are Lean `String`s; the text of a
  tool result is a list of Unicode codepoints (`List Nat`), because the
  result decoder works codepoint by codepoint.
* `str.endswith(suf)` is embedded as a suffix test on the codepoint sequence
  (`strEndsWith`), and Python falsiness of a string (`if not s:`) as `s == ""`.
* The MCP transport (`stdio_client` + `ClientSession.initialize` +
  `list_tools`) is an oracle `world : String → ConnectOutcome`: for a given
  launch path it either yields a connected server (its tool list and a
  `call_tool` behaviour) or raises.  The Anthropic model endpoint is an
  oracle too: a script of replies, consumed one per `get_response` call.
* Raised Python exceptions are surfaced as `Option String` / `Except String`
  values: `some e` / `Except.error e` means the call raised `e` uncaught.
-/

/-- A tool descriptor as listed by an MCP server (`mcp.types.Tool`:
the fields `name`, `description`, `inputSchema` used by the client). -/
structure Tool where
  name : String
  description : String
  inputSchema : String
deriving DecidableEq

/-- One content item of a tool result (`mcp.types` content).  `text` embeds
`TextContent` (its text as a list of codepoints); `other` stands for any
non-text content item (image, embedded resource, ...), kept opaque. -/
inductive MContent where
  | text (t : List Nat)
  | other (tag : Nat) (payload : List Nat)
deriving DecidableEq

/-- Embeds `mcp.types.CallToolResult`: ordered content items plus the error flag. -/
structure CallToolResult where
  content : List MContent
  isError : Bool
deriving DecidableEq

/-- Is `c` in the ASCII range of hexadecimal digits (0-9, a-f, A-F)? -/
def isHexDigit (c : Nat) : Bool :=
  (48 ≤ c && c ≤ 57) || (97 ≤ c && c ≤ 102) || (65 ≤ c && c ≤ 70)

/-- Numeric value of a hexadecimal digit codepoint. -/
def hexVal (c : Nat) : Nat :=
  if c ≤ 57 then c - 48 else if c ≤ 70 then c - 55 else c - 87

/-- Is `c` an ASCII octal digit (0-7)? -/
def isOctDigit (c : Nat) : Bool := 48 ≤ c && c ≤ 55

/-- UTF-8 encoding of a single codepoint, as in `str.encode('utf-8')`. -/
def utf8Bytes (c : Nat) : List Nat :=
  if c < 128 then [c]
  else if c < 2048 then [192 + c / 64, 128 + c % 64]
  else if c < 65536 then [224 + c / 4096, 128 + (c / 64) % 64, 128 + c % 64]
  else [240 + c / 262144, 128 + (c / 4096) % 64, 128 + (c / 64) % 64, 128 + c % 64]

/-- UTF-8 encoding of a codepoint sequence (`str.encode('utf-8')`). -/
def utf8Encode : List Nat → List Nat
  | [] => []
  | c :: rest => utf8Bytes c ++ utf8Encode rest

/-- Model of `bytes.decode('unicode_escape')` over a byte sequence: plain
bytes pass through (latin-1 style), backslash escape sequences are decoded,
and a malformed escape makes the whole decode fail (`none`, standing for the
`UnicodeDecodeError`/`ValueError` the Python codec raises).  `\N{...}` name
lookups are not modelled and are treated as a decode failure; no input used
by any theorem below contains them. -/
def unicodeEscapeFuel : Nat → List Nat → Option (List Nat)
  | _, [] => some []
  | 0, _ :: _ => none
  | Nat.succ fuel, 92 :: rest =>
    match rest with
    | [] => none
    | c :: rest2 =>
      if c = 10 then unicodeEscapeFuel fuel rest2
      else if c = 92 then (unicodeEscapeFuel fuel rest2).map (fun l => 92 :: l)
      else if c = 39 then (unicodeEscapeFuel fuel rest2).map (fun l => 39 :: l)
      else if c = 34 then (unicodeEscapeFuel fuel rest2).map (fun l => 34 :: l)
      else if c = 97 then (unicodeEscapeFuel fuel rest2).map (fun l => 7 :: l)
      else if c = 98 then (unicodeEscapeFuel fuel rest2).map (fun l => 8 :: l)
      else if c = 102 then (unicodeEscapeFuel fuel rest2).map (fun l => 12 :: l)
      else if c = 110 then (unicodeEscapeFuel fuel rest2).map (fun l => 10 :: l)
      else if c = 114 then (unicodeEscapeFuel fuel rest2).map (fun l => 13 :: l)
      else if c = 116 then (unicodeEscapeFuel fuel rest2).map (fun l => 9 :: l)
      else if c = 118 then (unicodeEscapeFuel fuel rest2).map (fun l => 11 :: l)
      else if isOctDigit c then
        match rest2 with
        | d2 :: rest3 =>
          if isOctDigit d2 then
            match rest3 with
            | d3 :: rest4 =>
              if isOctDigit d3 then
                (unicodeEscapeFuel fuel rest4).map
                  (fun l => (((c - 48) * 8 + (d2 - 48)) * 8 + (d3 - 48)) :: l)
              else (unicodeEscapeFuel fuel rest3).map (fun l => ((c - 48) * 8 + (d2 - 48)) :: l)
            | [] => some [(c - 48) * 8 + (d2 - 48)]
          else (unicodeEscapeFuel fuel rest2).map (fun l => (c - 48) :: l)
        | [] => some [c - 48]
      else if c = 120 then
        match rest2 with
        | h1 :: h2 :: rest3 =>
          if isHexDigit h1 && isHexDigit h2 then
            (unicodeEscapeFuel fuel rest3).map (fun l => (hexVal h1 * 16 + hexVal h2) :: l)
          else none
        | _ => none
      else if c = 117 then
        match rest2 with
        | h1 :: h2 :: h3 :: h4 :: rest3 =>
          if isHexDigit h1 && isHexDigit h2 && isHexDigit h3 && isHexDigit h4 then
            (unicodeEscapeFuel fuel rest3).map
              (fun l => (((hexVal h1 * 16 + hexVal h2) * 16 + hexVal h3) * 16 + hexVal h4) :: l)
          else none
        | _ => none
      else if c = 85 then
        match rest2 with
        | h1 :: h2 :: h3 :: h4 :: h5 :: h6 :: h7 :: h8 :: rest3 =>
          if isHexDigit h1 && isHexDigit h2 && isHexDigit h3 && isHexDigit h4 &&
             isHexDigit h5 && isHexDigit h6 && isHexDigit h7 && isHexDigit h8 then
            let v := ((((((hexVal h1 * 16 + hexVal h2) * 16 + hexVal h3) * 16 + hexVal h4) * 16 +
              hexVal h5) * 16 + hexVal h6) * 16 + hexVal h7) * 16 + hexVal h8
            if v ≤ 1114111 then (unicodeEscapeFuel fuel rest3).map (fun l => v :: l) else none
          else none
        | _ => none
      else if c = 78 then none
      else (unicodeEscapeFuel fuel rest2).map (fun l => 92 :: c :: l)
  | Nat.succ fuel, b :: rest => (unicodeEscapeFuel fuel rest).map (fun l => b :: l)

/-- The escape decoder applied with enough fuel: every recursive step of
`unicodeEscapeFuel` consumes at least one byte, so `length + 1` units of
fuel always suffice and the fuel-exhaustion branch is unreachable. -/
def unicodeEscapeAux (bytes : List Nat) : Option (List Nat) :=
  unicodeEscapeFuel (bytes.length + 1) bytes

/-- Does the text contain the two-codepoint marker `\u` (the test
`'\x5cu' in content.text` of `decode_results`)? -/
def containsBackslashU : List Nat → Bool
  | [] => false
  | 92 :: 117 :: _ => true
  | _ :: rest => containsBackslashU rest

/-- Embeds `content.text.encode('utf-8').decode('unicode_escape')` of
`MCPClient.decode_results`, `none` when the codec raises. -/
def decodeText (t : List Nat) : Option (List Nat) :=
  unicodeEscapeAux (utf8Encode t)

/-- The per-item body of the loop in `MCPClient.decode_results`: text items
containing the `\u` marker are unescaped (kept unchanged when the codec
raises, reproducing the `except` branch); text items without the marker and
non-text items pass through unchanged. -/
def decodeContent (c : MContent) : MContent :=
  match c with
  | MContent.text t =>
    if containsBackslashU t then
      match decodeText t with
      | some d => MContent.text d
      | none => MContent.text t
    else MContent.text t
  | MContent.other tag payload => MContent.other tag payload

/-- Embeds `MCPClient.decode_results`: decode each content item in order, keep the
error flag. -/
def decode_results (results : CallToolResult) : CallToolResult :=
  { content := results.content.map decodeContent, isError := results.isError }

example : decodeContent (MContent.text [92, 92, 117, 48, 48, 52, 49]) =
    MContent.text [92, 117, 48, 48, 52, 49] := by decide

example : decodeContent (MContent.text [92, 117, 48, 48, 52, 49]) =
    MContent.text [65] := by decide

/-- A connected MCP server as the client sees it: the tool list returned by
`list_tools()` and the behaviour of `session.call_tool` (an oracle mapping
tool name and arguments to the raw `CallToolResult`).  This is the value
stored in `self.sessions[server_script_path]`. -/
structure Server where
  tools : List Tool
  callTool : String → String → CallToolResult

/-- The mutable state of `MCPClient` relevant to the claims: the `sessions`
dict (insertion-ordered association list from launch path to server) and
the `available_tools` list. -/
structure ClientState where
  sessions : List (String × Server)
  available_tools : List Tool

/-- The fresh `MCPClient()`: no sessions, no tools. -/
def initialState : ClientState := { sessions := [], available_tools := [] }

/-- Python dict assignment `d[k] = v`: replace in place when the key exists,
append otherwise (insertion order preserved). -/
def dictInsert (d : List (String × Server)) (k : String) (v : Server) :
    List (String × Server) :=
  if d.any (fun q => q.1 == k) then
    d.map (fun q => if q.1 == k then (k, v) else q)
  else d ++ [(k, v)]

/-- The dedup loop of `MCPClient._update_available_tools`: `seen` is the
`tool_names` set, tools whose name was already seen are dropped. -/
def dedupAux : List String → List Tool → List Tool
  | _, [] => []
  | seen, t :: rest =>
    if seen.contains t.name then dedupAux seen rest
    else t :: dedupAux (t.name :: seen) rest

/-- Embeds `MCPClient._update_available_tools`: concatenate every connected
tools of every connected server in session (connection) order, then deduplicate by name,
first seen wins. -/
def update_available_tools (sessions : List (String × Server)) : List Tool :=
  dedupAux [] (sessions.foldl (fun acc s => acc ++ s.2.tools) [])

/-- Outcome of the MCP transport for one launch path: `ok` bundles a
successful `stdio_client` + `initialize` + `list_tools` handshake into a
connected `Server`; `fail` is the exception any of those raises. -/
inductive ConnectOutcome where
  | ok (srv : Server)
  | fail (e : String)

/-- Suffix test on the codepoint sequence, embedding `str.endswith`. -/
def strEndsWith (s suffix : String) : Bool :=
  suffix.data.isSuffixOf s.data

/-- Embeds `MCPClient.connect_to_server`.  Returns the state of the client object
after the call together with `some e` when the call raised exception `e`
uncaught (the state is unchanged in that case because every raise in the
source happens before the mutations of `self.sessions` /
`self.available_tools`).  An empty path is logged and the method just
returns; a path ending in neither `.py` nor `.js` raises the `ValueError`;
a transport failure is logged and re-raised. -/
def connect_to_server (world : String → ConnectOutcome) (st : ClientState)
    (server_script_path : String) : ClientState × Option String :=
  if server_script_path == "" then (st, none)
  else
    let is_python := strEndsWith server_script_path ".py"
    let is_js := strEndsWith server_script_path ".js"
    if !(is_python || is_js) then
      (st, some "Server script must be a .py or .js file")
    else
      match world server_script_path with
      | ConnectOutcome.fail e => (st, some e)
      | ConnectOutcome.ok srv =>
        let sessions2 := dictInsert st.sessions server_script_path srv
        ({ sessions := sessions2, available_tools := update_available_tools sessions2 },
          none)

/-- Embeds `initialize_client` of `app.py`: connect to the Rapidata MCP path and
then the image-generation MCP path when the respective environment variable
is set (a missing variable is only logged); neither `connect_to_server`
call is wrapped in a try/except, so a raised exception propagates and the
second connection is not attempted. -/
def init_client (world : String → ConnectOutcome)
    (rapidata_mcp_path image_generation_mcp_path : Option String) :
    ClientState × Option String :=
  let step1 :=
    match rapidata_mcp_path with
    | some p => connect_to_server world initialState p
    | none => (initialState, none)
  match step1 with
  | (st1, some e) => (st1, some e)
  | (st1, none) =>
    match image_generation_mcp_path with
    | some p => connect_to_server world st1 p
    | none => (st1, none)

/-- A sequence of `connect_to_server` calls on one client, stopping at the
first raised exception (as any straight-line caller would). -/
def runConnects (world : String → ConnectOutcome) (st : ClientState) :
    List String → ClientState × Option String
  | [] => (st, none)
  | p :: ps =>
    match connect_to_server world st p with
    | (st2, none) => runConnects world st2 ps
    | (st2, some e) => (st2, some e)

/-- The scan in `MCPClient.use_tool` that sets `server_path`: first session
in insertion order whose tool list contains the name. -/
def firstOwner : List (String × Server) → String → Option String
  | [], _ => none
  | q :: rest, n =>
    if q.2.tools.any (fun t => t.name == n) then some q.1 else firstOwner rest n

/-- Python dict lookup `self.sessions[server_path]`. -/
def lookupServer : List (String × Server) → String → Option Server
  | [], _ => none
  | q :: rest, p => if q.1 == p then some q.2 else lookupServer rest p

/-- Embeds `MCPClient.use_tool`.  First component: the decoded result, or
`Except.error e` when the method raised `e` (the `ValueError` for an
unregistered tool name).  Second component: the `call_tool` round trips
performed, as `(server_path, tool_name, tool_args)` triples.  The source
guard is `if not server_path:`, which is also taken when the found path is
the empty string (Python falsiness); the `KeyError` branch is unreachable
because the scanned path is a key of the dict. -/
def use_tool (sessions : List (String × Server)) (tool_name tool_args id : String) :
    Except String CallToolResult × List (String × String × String) :=
  match firstOwner sessions tool_name with
  | none =>
    (Except.error ("Tool " ++ tool_name ++ " not found in any connected server"), [])
  | some p =>
    if p == "" then
      (Except.error ("Tool " ++ tool_name ++ " not found in any connected server"), [])
    else
      match lookupServer sessions p with
      | none => (Except.error "KeyError", [])
      | some srv =>
        (Except.ok (decode_results (srv.callTool tool_name tool_args)),
          [(p, tool_name, tool_args)])

/-- Role of a message in the `conversation_history` sent to the model. -/
inductive Role where
  | user
  | assistant
deriving DecidableEq

/-- One entry of the `content` list of a message in in `conversation_history`:
the `{"type": "text"}`, `{"type": "tool_use"}` and `{"type": "tool_result"}`
dicts built by `get_chat_response`. -/
inductive Block where
  | textB (text : String)
  | toolUseB (id name input : String)
  | toolResultB (tool_use_id : String) (content : List MContent)
deriving DecidableEq

/-- One message of `st.session_state.conversation_history`. -/
structure Msg where
  role : Role
  content : List Block
deriving DecidableEq

/-- One content segment of a model reply (`response.content` of the
Anthropic `Message`): a text segment or a tool-use request. -/
inductive RespBlock where
  | text (text : String)
  | toolUse (id name input : String)
deriving DecidableEq

/-- Result of processing one model reply in the `while True:` loop of
`get_chat_response`: the loop is left with a final history (`done`),
re-invokes the model after one dispatch (`next`, carrying the
`(name, input, id)` of the `use_tool` call), or an exception escaped
(`failed`, also carrying the attempted call). -/
inductive StepResult where
  | done (history : List Msg)
  | next (history : List Msg) (call : String × String × String)
  | failed (e : String) (call : String × String × String)

/-- The `for content in response.content:` loop of `get_chat_response`
building `assistant_content` (here `acc`, most recent first): text segments
are accumulated; at the first `tool_use` segment the tool is dispatched via
`use_tool`, the assistant message (accumulated content plus this tool_use)
and the `tool_result` user message are appended to the history, and the
loop breaks to re-invoke the model — segments after the first tool_use are
never reached.  An exception from `use_tool` escapes (nothing is appended,
because the dispatch happens before the history appends in the source).
When no tool_use segment occurs, the assistant message is appended only if
`assistant_content` is non-empty. -/
def scanReply (sessions : List (String × Server)) (history : List Msg)
    (acc : List Block) : List RespBlock → StepResult
  | [] =>
    if acc.isEmpty then StepResult.done history
    else StepResult.done (history ++ [{ role := Role.assistant, content := acc.reverse }])
  | RespBlock.text s :: bs => scanReply sessions history (Block.textB s :: acc) bs
  | RespBlock.toolUse id name input :: _ =>
    match use_tool sessions name input id with
    | (Except.error e, _) => StepResult.failed e (name, input, id)
    | (Except.ok result, _) =>
      StepResult.next
        (history ++
          [{ role := Role.assistant, content := (Block.toolUseB id name input :: acc).reverse },
           { role := Role.user, content := [Block.toolResultB id result.content] }])
        (name, input, id)

/-- The `while True:` loop of `get_chat_response`, driven by the scripted
model oracle: each model call consumes the next reply of `script`.  Returns
the final `conversation_history` (or the uncaught exception) together with
the trace of `use_tool` dispatches as `(name, input, id)` triples.  An
exhausted script stands for a run that needed more model replies than the
scenario provides. -/
def runEngine (sessions : List (String × Server)) :
    List (List RespBlock) → List Msg →
    Except String (List Msg) × List (String × String × String)
  | [], _ => (Except.error "no model reply scripted", [])
  | r :: rest, history =>
    match scanReply sessions history [] r with
    | StepResult.done h2 => (Except.ok h2, [])
    | StepResult.failed e d => (Except.error e, [d])
    | StepResult.next h2 d =>
      let cont := runEngine sessions rest h2
      (cont.1, d :: cont.2)

/-- Embeds `get_chat_response(query, client)` of `app.py`: append the user query to
the conversation history, then run the model/tool loop. -/
def get_chat_response (sessions : List (String × Server))
    (script : List (List RespBlock)) (prior : List Msg) (query : String) :
    Except String (List Msg) × List (String × String × String) :=
  runEngine sessions script (prior ++ [{ role := Role.user, content := [Block.textB query] }])

/-- The first tool_use segment of a model reply, in emission order, as the
`(name, input, id)` triple `use_tool` would receive. -/
def firstToolUse : List RespBlock → Option (String × String × String)
  | [] => none
  | RespBlock.text _ :: bs => firstToolUse bs
  | RespBlock.toolUse id name input :: _ => some (name, input, id)

/-- The text segments of a model reply preceding its first tool_use segment,
as the content blocks `get_chat_response` accumulates before dispatching. -/
def textsBefore : List RespBlock → List Block
  | [] => []
  | RespBlock.text s :: bs => Block.textB s :: textsBefore bs
  | RespBlock.toolUse _ _ _ :: _ => []

/-- The call id of a tool_use block (`none` for other blocks). -/
def toolUseOf : Block → Option String
  | Block.toolUseB id _ _ => some id
  | _ => none

/-- Call ids of the tool_use blocks of a message, in order. -/
def msgToolUses (m : Msg) : List String :=
  m.content.filterMap toolUseOf

/-- Is `m` a tool-result user message for call id `k`, i.e. a user message
whose content is exactly one `tool_result` block carrying `k`? -/
def isResultMsgFor (k : String) (m : Msg) : Bool :=
  match m with
  | { role := Role.user, content := [Block.toolResultB k2 _] } => k == k2
  | _ => false

/-- Local pairing condition of one message against the rest of the
transcript: a message with no tool_use blocks is fine; an assistant message
with exactly one tool_use block must be immediately followed by the
matching tool-result user message; anything else is ill-paired. -/
def okHead (m : Msg) (rest : List Msg) : Bool :=
  match msgToolUses m with
  | [] => true
  | [k] =>
    match m.role with
    | Role.assistant =>
      match rest with
      | m2 :: _ => isResultMsgFor k m2
      | [] => false
    | Role.user => false
  | _ => false

/-- Transcript pairing invariant: every tool_use block sits in an assistant
message containing exactly that one tool_use, immediately followed by
exactly one tool-result user message carrying the same call id. -/
def wellPaired : List Msg → Bool
  | [] => true
  | m :: rest => okHead m rest && wellPaired rest

/-- The tools of a session list concatenated in session order (the value the
`tools.extend` loop of `_update_available_tools` accumulates). -/
def concatTools : List (String × Server) → List Tool
  | [] => []
  | s :: rest => s.2.tools ++ concatTools rest

/-- Decidable cleanliness of a content item: a text item is clean when it
does not contain the `\u` marker; non-text items are always clean. -/
def cleanContent : MContent → Bool
  | MContent.text t => !(containsBackslashU t)
  | MContent.other _ _ => true

/-- Fixture: the tool exposed by the demo server. -/
def demoTool : Tool := { name := "do_task", description := "runs a task", inputSchema := "s" }

/-- Fixture: a server exposing `do_task`, whose `call_tool` always returns
the clean text `65000` (codepoints) with no error. -/
def demoServer : Server :=
  { tools := [demoTool],
    callTool := fun _ _ => { content := [MContent.text [54, 53, 48, 48, 48]], isError := false } }

/-- Fixture: a server exposing only a tool named `z`. -/
def otherServer : Server :=
  { tools := [{ name := "z", description := "d", inputSchema := "s" }],
    callTool := fun _ _ => { content := [], isError := false } }

/-- Fixture: one connected server under path `srv.py`. -/
def demoSessions : List (String × Server) := [("srv.py", demoServer)]

/-- Fixture transport: `bad.py` is unreachable, everything else connects to
the demo server. -/
def demoWorld : String → ConnectOutcome :=
  fun p => if p == "bad.py" then ConnectOutcome.fail "unreachable" else ConnectOutcome.ok demoServer

/-- Fixture: a server exposing `x` (described `from a`) and `y`. -/
def srvA : Server :=
  { tools := [{ name := "x", description := "from a", inputSchema := "s" },
              { name := "y", description := "ya", inputSchema := "s" }],
    callTool := fun _ _ => { content := [], isError := false } }

/-- Fixture: a second server also exposing `x` (described `from b`), plus `z`. -/
def srvB : Server :=
  { tools := [{ name := "x", description := "from b", inputSchema := "s" },
              { name := "z", description := "zb", inputSchema := "s" }],
    callTool := fun _ _ => { content := [], isError := false } }

/-- Fixture: `a.py` hosts `srvA`, anything else hosts `srvB`. -/
def demoSrvFn : String → Server := fun p => if p == "a.py" then srvA else srvB

/-- Fixture transport where every connection succeeds, serving `demoSrvFn`. -/
def demoWorld2 : String → ConnectOutcome := fun p => ConnectOutcome.ok (demoSrvFn p)

/-- Fixture: a result whose text is the six characters `\x5c\x5cu0041`
(escaped backslash followed by `u0041`), which unescapes in two stages. -/
def stagedEscapeResult : CallToolResult :=
  { content := [MContent.text [92, 92, 117, 48, 48, 52, 49]], isError := false }

/-- Fixture: a result whose only text is the marker-free `hi`. -/
def cleanResult : CallToolResult :=
  { content := [MContent.text [104, 105]], isError := false }

/-- Fixture: an error result with one non-text content item. -/
def demoFrameResult : CallToolResult :=
  { content := [MContent.other 1 [5]], isError := true }

/-- Fixture model script: one tool call, then a text-only reply. -/
def demoScript : List (List RespBlock) :=
  [[RespBlock.toolUse "t1" "do_task" "a1"], [RespBlock.text "done"]]

/-- The conversation history produced by running `demoScript` against
`demoSessions` from an empty conversation with query `hi`. -/
def demoHistory : List Msg :=
  [{ role := Role.user, content := [Block.textB "hi"] },
   { role := Role.assistant, content := [Block.toolUseB "t1" "do_task" "a1"] },
   { role := Role.user,
     content := [Block.toolResultB "t1" [MContent.text [54, 53, 48, 48, 48]]] },
   { role := Role.assistant, content := [Block.textB "done"] }]

/-- The decoded result that `do_task` of the demo server produces. -/
def demoRes : CallToolResult :=
  { content := [MContent.text [54, 53, 48, 48, 48]], isError := false }

/-- Claim C9, counterexample: calling connect with the empty identifier
returns normally (`none`: no exception, in particular no ConnectionError),
against the claim that the call fails with a ConnectionError. -/
theorem connect_empty_identifier_cex :
    connect_to_server demoWorld initialState "" = (initialState, none) := rfl

/-- Claim C9 (amended): for every call of connect with an empty identifier
string, the call logs an error and returns normally — it does not raise —
and registers nothing (the client state is unchanged). -/
theorem connect_empty_identifier_noop (world : String → ConnectOutcome) (st : ClientState) :
    connect_to_server world st "" = (st, none) := rfl

/-- Claim C10: for every non-empty server identifier ending in neither
`.py` nor `.js`, `connect_to_server` raises the ValueError before
attempting any connection (the outcome does not depend on the transport
oracle at all) and the registry state is unchanged. -/
theorem connect_bad_extension_rejected (st : ClientState) (path : String)
    (hne : (path == "") = false)
    (hpy : strEndsWith path ".py" = false)
    (hjs : strEndsWith path ".js" = false) :
    ∀ world : String → ConnectOutcome,
      connect_to_server world st path =
        (st, some "Server script must be a .py or .js file") := by
  intro world
  simp [connect_to_server, hne, hpy, hjs]

/-- Witness for C10 at the concrete identifier `server.txt`. -/
theorem connect_bad_extension_rejected_witness :
    connect_to_server demoWorld initialState "server.txt" =
      (initialState, some "Server script must be a .py or .js file") :=
  connect_bad_extension_rejected initialState "server.txt"
    (by decide) (by decide) (by decide) demoWorld

/-- Claim C8, counterexample: with the first configured server unreachable,
client initialization raises the transport error instead of proceeding, and
the second (healthy) server is never connected — the session does not
proceed with the remaining servers. -/
theorem connect_failure_fatal_cex :
    (init_client demoWorld (some "bad.py") (some "srv.py")).2 = some "unreachable" ∧
    (init_client demoWorld (some "bad.py") (some "srv.py")).1.sessions = [] :=
  ⟨rfl, rfl⟩

/-- Claim C8 (amended): a failed connection attempt is logged and the
exception re-raised by `connect_to_server`; `initialize_client` does not
catch it, so session startup aborts with that exception and no further
server is connected (the claimed non-fatal behaviour holds only for a
missing path configuration, which is logged as a warning and skipped). -/
theorem connect_failure_aborts_startup (world : String → ConnectOutcome)
    (rp : String) (ip : Option String) (e : String)
    (hne : (rp == "") = false)
    (hext : (strEndsWith rp ".py" || strEndsWith rp ".js") = true)
    (hfail : world rp = ConnectOutcome.fail e) :
    init_client world (some rp) ip = (initialState, some e) := by
  simp [init_client, connect_to_server, hne, hext, hfail]

/-- Witness for the amended C8 at the concrete unreachable path `bad.py`. -/
theorem connect_failure_aborts_startup_witness :
    init_client demoWorld (some "bad.py") (some "x.py") = (initialState, some "unreachable") :=
  connect_failure_aborts_startup demoWorld "bad.py" (some "x.py") "unreachable"
    (by decide) (by decide) rfl

/-- Claim C6, counterexample: decoding is not idempotent.  On the text
`\x5c\x5cu0041` the first decode yields `\x5cu0041`, which still contains
the marker, and a second decode yields `A`. -/
theorem decode_results_not_idempotent :
    decode_results (decode_results stagedEscapeResult) ≠ decode_results stagedEscapeResult := by
  decide

/-- Claim C6 (amended): decoding is a no-op on results whose text items are
already free of the `\u` escape marker — and hence idempotent on those —
but `decode(decode(x)) = decode(x)` does not hold for every result, because
decoding can unescape in stages. -/
theorem decode_results_noop_on_clean (r : CallToolResult)
    (hclean : ∀ c ∈ r.content, cleanContent c = true) :
    decode_results r = r ∧
    decode_results (decode_results r) = decode_results r := by
  have hid : ∀ c ∈ r.content, decodeContent c = c := by
    intro c hc
    cases c with
    | text t =>
      have := hclean _ hc
      simp [cleanContent] at this
      simp [decodeContent, this]
    | other tag payload => rfl
  have h1 : decode_results r = r := by
    cases r with
    | mk content isError =>
      simp only [decode_results]
      congr 1
      calc content.map decodeContent = content.map id := List.map_congr_left hid
        _ = content := List.map_id content
  exact ⟨h1, by rw [h1]; exact h1⟩

/-- Witness for the amended C6 at a concrete marker-free result. -/
theorem decode_results_noop_on_clean_witness :
    decode_results cleanResult = cleanResult ∧
    decode_results (decode_results cleanResult) = decode_results cleanResult :=
  decode_results_noop_on_clean cleanResult (by decide)

/-- Claim C7: decoding preserves the `is_error` flag and the number of
content items, and passes every non-text content item through unchanged at
its position. -/
theorem decode_results_frame (r : CallToolResult) :
    (decode_results r).isError = r.isError ∧
    (decode_results r).content.length = r.content.length ∧
    ∀ (i : Nat) (c : MContent), r.content.get? i = some c →
      (∀ t, c ≠ MContent.text t) →
      (decode_results r).content.get? i = some c := by
  refine ⟨rfl, by simp [decode_results], ?_⟩
  intro i c hget ht
  have : (decode_results r).content.get? i = some (decodeContent c) := by
    show (r.content.map decodeContent).get? i = some (decodeContent c)
    rw [List.get?_map, hget]
    rfl
  rw [this]
  cases c with
  | text t => exact absurd rfl (ht t)
  | other tag payload => rfl

/-- Witness for C7 at a concrete error result with a non-text item. -/
theorem decode_results_frame_witness :
    (decode_results demoFrameResult).isError = demoFrameResult.isError ∧
    (decode_results demoFrameResult).content.get? 0 = some (MContent.other 1 [5]) :=
  ⟨(decode_results_frame demoFrameResult).1,
   (decode_results_frame demoFrameResult).2.2 0 (MContent.other 1 [5]) rfl
     (fun t h => MContent.noConfusion h)⟩

/-- Inserting a fresh key into the sessions dict appends it at the end. -/
theorem dictInsert_fresh (d : List (String × Server)) (k : String) (v : Server)
    (h : ∀ q ∈ d, (q.1 == k) = false) : dictInsert d k v = d ++ [(k, v)] := by
  have hany : d.any (fun q => q.1 == k) = false := by
    rw [List.any_eq_false]
    intro q hq
    simp [h q hq]
  simp [dictInsert, hany]

/-- The `tools.extend` fold of `_update_available_tools` computes the
concatenation of all session tool lists. -/
theorem foldl_extend_tools (l : List (String × Server)) :
    ∀ acc : List Tool, l.foldl (fun a s => a ++ s.2.tools) acc = acc ++ concatTools l := by
  induction l with
  | nil => intro acc; simp [concatTools]
  | cons s rest ih => intro acc; simp [concatTools, ih, List.append_assoc]


/-- Bridging lemma: `List.contains` agrees with membership (strings have lawful `BEq`). -/
theorem contains_eq_true_iff (l : List String) (a : String) :
    l.contains a = true ↔ a ∈ l := List.elem_iff

/-- Unfolding the dedup loop when the name of the head tool was already seen. -/
theorem dedupAux_cons_mem (seen : List String) (t0 : Tool) (rest : List Tool)
    (hs : t0.name ∈ seen) : dedupAux seen (t0 :: rest) = dedupAux seen rest := by
  simp [dedupAux, contains_eq_true_iff, hs]

/-- Unfolding the dedup loop when the name of the head tool is fresh. -/
theorem dedupAux_cons_not_mem (seen : List String) (t0 : Tool) (rest : List Tool)
    (hs : t0.name ∉ seen) :
    dedupAux seen (t0 :: rest) = t0 :: dedupAux (t0.name :: seen) rest := by
  simp [dedupAux, contains_eq_true_iff, hs]

/-- Counting lemma for the dedup loop: a name already in `seen` never
appears in the output; a fresh name appears exactly `min (count) 1` times. -/
theorem dedupAux_count (n : String) :
    ∀ (ts : List Tool) (seen : List String),
      ((dedupAux seen ts).filter (fun u => u.name == n)).length =
        if n ∈ seen then 0
        else min ((ts.filter (fun u => u.name == n)).length) 1 := by
  intro ts
  induction ts with
  | nil => intro seen; simp [dedupAux]
  | cons t rest ih =>
    intro seen
    by_cases htn : t.name = n
    · subst htn
      by_cases hs : t.name ∈ seen
      · simp [dedupAux, hs, ih, List.filter_cons]
      · have h1 := ih (t.name :: seen)
        simp only [List.mem_cons, true_or, if_true] at h1
        simp [dedupAux, hs, List.filter_cons, h1]
    · have hbn : (t.name == n) = false := by
        rw [Bool.eq_false_iff]
        intro hc
        exact htn (eq_of_beq hc)
      by_cases hs : t.name ∈ seen
      · simp [dedupAux, hs, ih, List.filter_cons, hbn]
      · have hcn : n ∈ t.name :: seen ↔ n ∈ seen := by
          constructor
          · intro h
            rcases List.mem_cons.mp h with h1 | h2
            · exact absurd h1.symm htn
            · exact h2
          · intro h
            exact List.mem_cons_of_mem _ h
        simp [dedupAux, hs, ih, List.filter_cons, hbn, hcn]

/-- Every tool in the dedup output has a name outside the `seen` set. -/
theorem dedupAux_mem_not_seen :
    ∀ (ts : List Tool) (seen : List String) (t : Tool), t ∈ dedupAux seen ts →
      t.name ∉ seen := by
  intro ts
  induction ts with
  | nil => intro seen t ht; simp [dedupAux] at ht
  | cons t0 rest ih =>
    intro seen t ht
    by_cases hs : t0.name ∈ seen
    · rw [dedupAux_cons_mem seen t0 rest hs] at ht
      exact ih seen t ht
    · rw [dedupAux_cons_not_mem seen t0 rest hs] at ht
      rcases List.mem_cons.mp ht with rfl | ht2
      · exact hs
      · have h1 := ih (t0.name :: seen) t ht2
        intro hmem
        exact h1 (List.mem_cons_of_mem _ hmem)

/-- First-seen-wins: every tool in the dedup output is the first tool with
its name in the input list. -/
theorem dedupAux_first_occurrence :
    ∀ (ts : List Tool) (seen : List String) (t : Tool), t ∈ dedupAux seen ts →
      ts.find? (fun u => u.name == t.name) = some t := by
  intro ts
  induction ts with
  | nil => intro seen t ht; simp [dedupAux] at ht
  | cons t0 rest ih =>
    intro seen t ht
    by_cases hs : t0.name ∈ seen
    · rw [dedupAux_cons_mem seen t0 rest hs] at ht
      have hfind := ih seen t ht
      have hnotseen := dedupAux_mem_not_seen rest seen t ht
      have hne : (t0.name == t.name) = false := by
        rw [Bool.eq_false_iff]
        intro hc
        rw [eq_of_beq hc] at hs
        exact hnotseen hs
      simp [List.find?_cons, hne, hfind]
    · rw [dedupAux_cons_not_mem seen t0 rest hs] at ht
      rcases List.mem_cons.mp ht with rfl | ht2
      · simp [List.find?_cons]
      · have hfind := ih (t0.name :: seen) t ht2
        have hnotseen := dedupAux_mem_not_seen rest (t0.name :: seen) t ht2
        have hne : (t0.name == t.name) = false := by
          rw [Bool.eq_false_iff]
          intro hc
          exact hnotseen (by rw [← eq_of_beq hc]; exact List.mem_cons_self _ _)
        simp [List.find?_cons, hne, hfind]

/-- The dedup output is a sublist of the input (discovery order kept). -/
theorem dedupAux_sublist :
    ∀ (ts : List Tool) (seen : List String), List.Sublist (dedupAux seen ts) ts := by
  intro ts
  induction ts with
  | nil => intro seen; simp [dedupAux]
  | cons t0 rest ih =>
    intro seen
    by_cases hs : t0.name ∈ seen
    · rw [dedupAux_cons_mem seen t0 rest hs]
      exact (ih seen).cons t0
    · rw [dedupAux_cons_not_mem seen t0 rest hs]
      exact (ih (t0.name :: seen)).cons₂ t0

/-- A sequence of successful connects appends one session per path, in
order, and leaves the catalog recomputed over the final session list. -/
theorem runConnects_ok (world : String → ConnectOutcome) (srvFn : String → Server) :
    ∀ (paths : List String) (st : ClientState),
    (∀ p ∈ paths, (p == "") = false) →
    (∀ p ∈ paths, (strEndsWith p ".py" || strEndsWith p ".js") = true) →
    (∀ p ∈ paths, world p = ConnectOutcome.ok (srvFn p)) →
    (∀ p ∈ paths, ∀ q ∈ st.sessions, (q.1 == p) = false) →
    paths.Nodup →
    st.available_tools = update_available_tools st.sessions →
    runConnects world st paths =
      ({ sessions := st.sessions ++ paths.map (fun p => (p, srvFn p)),
         available_tools :=
           update_available_tools (st.sessions ++ paths.map (fun p => (p, srvFn p))) },
        none) := by
  intro paths
  induction paths with
  | nil =>
    intro st _ _ _ _ _ hinv
    cases st with
    | mk sessions available =>
      simp only [runConnects, List.map_nil, List.append_nil]
      rw [show available = update_available_tools sessions from hinv]
  | cons p ps ih =>
    intro st hne hext hok hfresh hnd hinv
    have hins : dictInsert st.sessions p (srvFn p) = st.sessions ++ [(p, srvFn p)] :=
      dictInsert_fresh _ _ _ (fun q hq => hfresh p (List.mem_cons_self p ps) q hq)
    have hstep : connect_to_server world st p =
        ({ sessions := st.sessions ++ [(p, srvFn p)],
           available_tools := update_available_tools (st.sessions ++ [(p, srvFn p)]) },
          none) := by
      simp [connect_to_server, hne p (List.mem_cons_self p ps),
        hext p (List.mem_cons_self p ps), hok p (List.mem_cons_self p ps), hins]
    have hnotps : p ∉ ps := (List.nodup_cons.mp hnd).1
    have hstep2 := ih { sessions := st.sessions ++ [(p, srvFn p)],
                        available_tools := update_available_tools (st.sessions ++ [(p, srvFn p)]) }
      (fun x hx => hne x (List.mem_cons_of_mem p hx))
      (fun x hx => hext x (List.mem_cons_of_mem p hx))
      (fun x hx => hok x (List.mem_cons_of_mem p hx))
      (by
        intro x hx q hq
        rcases List.mem_append.mp hq with hq1 | hq2
        · exact hfresh x (List.mem_cons_of_mem p hx) q hq1
        · rcases List.mem_singleton.mp hq2 with rfl
          rw [Bool.eq_false_iff]
          intro hc
          have : p = x := eq_of_beq hc
          exact hnotps (this ▸ hx)
        )
      (List.nodup_cons.mp hnd).2
      rfl
    simp only [runConnects, hstep, hstep2]
    simp [List.append_assoc]

/-- Claim C2: after any sequence of successful server connections (distinct
non-empty `.py`/`.js` paths, transport succeeding on each), the catalog
`available_tools` has exactly one entry per exposed tool name; each entry is
the first tool with that name in connection-then-within-server discovery
order (so a name exposed by two servers is attributed to the earlier
connection); and the catalog lists entries in discovery order (it is a
sublist of the concatenated tool lists). -/
theorem catalog_dedup_first_wins (world : String → ConnectOutcome)
    (srvFn : String → Server) (paths : List String)
    (hnd : paths.Nodup)
    (hne : ∀ p ∈ paths, (p == "") = false)
    (hext : ∀ p ∈ paths, (strEndsWith p ".py" || strEndsWith p ".js") = true)
    (hok : ∀ p ∈ paths, world p = ConnectOutcome.ok (srvFn p)) :
    (runConnects world initialState paths).2 = none ∧
    (∀ n : String,
      0 < ((concatTools (paths.map (fun p => (p, srvFn p)))).filter
            (fun u => u.name == n)).length →
      ((runConnects world initialState paths).1.available_tools.filter
          (fun u => u.name == n)).length = 1) ∧
    (∀ t ∈ (runConnects world initialState paths).1.available_tools,
      (concatTools (paths.map (fun p => (p, srvFn p)))).find?
        (fun u => u.name == t.name) = some t) ∧
    List.Sublist (runConnects world initialState paths).1.available_tools
      (concatTools (paths.map (fun p => (p, srvFn p)))) := by
  have hrun := runConnects_ok world srvFn paths initialState hne hext hok
    (fun p _ q hq => by simp [initialState] at hq) hnd rfl
  have hcat : (runConnects world initialState paths).1.available_tools =
      dedupAux [] (concatTools (paths.map (fun p => (p, srvFn p)))) := by
    rw [hrun]
    simp [update_available_tools, foldl_extend_tools, initialState]
  refine ⟨by rw [hrun], ?_, ?_, ?_⟩
  · intro n hpos
    rw [hcat, dedupAux_count n _ []]
    simp only [List.not_mem_nil, if_false]
    omega
  · intro t ht
    rw [hcat] at ht
    exact dedupAux_first_occurrence _ [] t ht
  · rw [hcat]
    exact dedupAux_sublist _ []

/-- Witness for C2: two servers both exposing `x`; the run succeeds, the
catalog has exactly one `x`, attributed to the first-connected server
(description `from a`), and the catalog is in discovery order. -/
theorem catalog_dedup_first_wins_witness :
    (runConnects demoWorld2 initialState ["a.py", "b.py"]).2 = none ∧
    ((runConnects demoWorld2 initialState ["a.py", "b.py"]).1.available_tools.filter
        (fun u => u.name == "x")).length = 1 ∧
    (concatTools (["a.py", "b.py"].map (fun p => (p, demoSrvFn p)))).find?
        (fun u => u.name == "x") =
      some { name := "x", description := "from a", inputSchema := "s" } ∧
    List.Sublist (runConnects demoWorld2 initialState ["a.py", "b.py"]).1.available_tools
      (concatTools (["a.py", "b.py"].map (fun p => (p, demoSrvFn p)))) := by
  have h := catalog_dedup_first_wins demoWorld2 demoSrvFn ["a.py", "b.py"]
    (by decide) (by decide) (by decide) (fun p _ => rfl)
  exact ⟨h.1, h.2.1 "x" (by decide),
    h.2.2.1 { name := "x", description := "from a", inputSchema := "s" } (by decide),
    h.2.2.2⟩

/-- The ownership scan returns the path of the first session, in insertion
order, whose tool list contains the name. -/
theorem firstOwner_split (post : List (String × Server)) (p : String) (srv : Server)
    (n : String) (howns : srv.tools.any (fun t => t.name == n) = true) :
    ∀ pre : List (String × Server),
      (∀ q ∈ pre, q.2.tools.any (fun t => t.name == n) = false) →
      firstOwner (pre ++ (p, srv) :: post) n = some p := by
  intro pre
  induction pre with
  | nil => intro _; simp [firstOwner, howns]
  | cons q rest ih =>
    intro hpre
    have h1 := hpre q (List.mem_cons_self q rest)
    simp only [List.cons_append, firstOwner, h1, Bool.false_eq_true, if_false]
    exact ih (fun x hx => hpre x (List.mem_cons_of_mem q hx))

/-- Dict lookup at a key whose earlier entries all have different keys. -/
theorem lookupServer_split (post : List (String × Server)) (p : String) (srv : Server) :
    ∀ pre : List (String × Server),
      (∀ q ∈ pre, (q.1 == p) = false) →
      lookupServer (pre ++ (p, srv) :: post) p = some srv := by
  intro pre
  induction pre with
  | nil => simp [lookupServer]
  | cons q rest ih =>
    intro hk
    have h1 := hk q (List.mem_cons_self q rest)
    simp only [List.cons_append, lookupServer, h1, Bool.false_eq_true, if_false]
    exact ih (fun x hx => hk x (List.mem_cons_of_mem q hx))

/-- Claim C3: when the sessions split as `pre ++ (p, srv) :: post` with no
server in `pre` owning the tool, `srv` owning it, earlier keys different
from `p`, and `p` non-empty, `use_tool` forwards the call to `srv` —
performing exactly one `call_tool` round trip, on that server — and returns
its decoded result. -/
theorem dispatch_routing (pre post : List (String × Server)) (p : String) (srv : Server)
    (tool_name tool_args id : String)
    (hpre : ∀ q ∈ pre, q.2.tools.any (fun t => t.name == tool_name) = false)
    (hkeys : ∀ q ∈ pre, (q.1 == p) = false)
    (howns : srv.tools.any (fun t => t.name == tool_name) = true)
    (hp : (p == "") = false) :
    use_tool (pre ++ (p, srv) :: post) tool_name tool_args id =
      (Except.ok (decode_results (srv.callTool tool_name tool_args)),
        [(p, tool_name, tool_args)]) := by
  have hfo := firstOwner_split post p srv tool_name howns pre hpre
  have hlk := lookupServer_split post p srv pre hkeys
  simp [use_tool, hfo, hlk, hp]

/-- Witness for C3: `do_task` is owned by the second-connected server only;
the call routes past the first server and performs one round trip there. -/
theorem dispatch_routing_witness :
    use_tool [("other.py", otherServer), ("srv.py", demoServer)] "do_task" "a1" "t1" =
      (Except.ok (decode_results (demoServer.callTool "do_task" "a1")),
        [("srv.py", "do_task", "a1")]) :=
  dispatch_routing [("other.py", otherServer)] [] "srv.py" demoServer "do_task" "a1" "t1"
    (by intro q hq; rcases List.mem_singleton.mp hq with rfl; rfl)
    (by intro q hq; rcases List.mem_singleton.mp hq with rfl; rfl)
    rfl rfl

/-- When no session owns the name, the ownership scan finds nothing. -/
theorem firstOwner_none (n : String) :
    ∀ sessions : List (String × Server),
      (∀ q ∈ sessions, q.2.tools.any (fun t => t.name == n) = false) →
      firstOwner sessions n = none := by
  intro sessions
  induction sessions with
  | nil => intro _; rfl
  | cons q rest ih =>
    intro hnone
    have h1 := hnone q (List.mem_cons_self q rest)
    simp only [firstOwner, h1, Bool.false_eq_true, if_false]
    exact ih (fun x hx => hnone x (List.mem_cons_of_mem q hx))

/-- Claim C4, counterexample: invoking the unregistered name `ghost` makes
`use_tool` raise the ValueError, and the exception propagates out of the
conversation engine (`runEngine` returns the error) instead of being fed
back into the transcript as an `is_error` tool result. -/
theorem unknown_tool_crashes_engine_cex :
    (use_tool demoSessions "ghost" "a1" "t9").1 =
      Except.error "Tool ghost not found in any connected server" ∧
    (runEngine demoSessions [[RespBlock.toolUse "t9" "ghost" "a1"]] []).1 =
      Except.error "Tool ghost not found in any connected server" :=
  ⟨rfl, rfl⟩

/-- Claim C4 (amended): for every tool name owned by no connected server,
`use_tool` raises `ValueError("Tool <name> not found in any connected
server")` without performing any `call_tool` round trip, and — because
`get_chat_response` does not catch it — the exception propagates out of the
engine when the model requests that tool; no tool-result segment (with or
without `is_error`) is appended.  It is caught only by the outer UI
handler. -/
theorem unknown_tool_raises (sessions : List (String × Server)) (name args id : String)
    (hnone : ∀ q ∈ sessions, q.2.tools.any (fun t => t.name == name) = false) :
    use_tool sessions name args id =
      (Except.error ("Tool " ++ name ++ " not found in any connected server"), []) ∧
    ∀ (rest : List (List RespBlock)) (history : List Msg),
      runEngine sessions ([RespBlock.toolUse id name args] :: rest) history =
        (Except.error ("Tool " ++ name ++ " not found in any connected server"),
          [(name, args, id)]) := by
  have hfo := firstOwner_none name sessions hnone
  constructor
  · simp [use_tool, hfo]
  · intro rest history
    simp [runEngine, scanReply, use_tool, hfo]

/-- Witness for the amended C4 at the concrete unregistered name `ghost`. -/
theorem unknown_tool_raises_witness :
    use_tool demoSessions "ghost" "a2" "t8" =
      (Except.error ("Tool " ++ "ghost" ++ " not found in any connected server"), []) ∧
    runEngine demoSessions [[RespBlock.toolUse "t8" "ghost" "a2"]] [] =
      (Except.error ("Tool " ++ "ghost" ++ " not found in any connected server"),
        [("ghost", "a2", "t8")]) := by
  have h := unknown_tool_raises demoSessions "ghost" "a2" "t8"
    (by intro q hq; rcases List.mem_singleton.mp hq with rfl; rfl)
  exact ⟨h.1, h.2 [] []⟩

/-- The local pairing condition only looks at the immediate successor, so
appending further messages after a satisfied transcript preserves it. -/
theorem okHead_append (m : Msg) (rest b : List Msg) (h : okHead m rest = true) :
    okHead m (rest ++ b) = true := by
  rcases hmt : msgToolUses m with _ | ⟨k, _ | ⟨k2, ks⟩⟩
  · simp [okHead, hmt]
  · rcases hrole : m.role with _ | _
    · simp [okHead, hmt, hrole] at h
    · rcases rest with _ | ⟨m2, tail⟩
      · simp [okHead, hmt, hrole] at h
      · simp only [okHead, hmt, hrole, List.cons_append] at h ⊢
        exact h
  · simp [okHead, hmt] at h

/-- Concatenating two well-paired transcripts is well-paired. -/
theorem wellPaired_append (a b : List Msg) (ha : wellPaired a = true)
    (hb : wellPaired b = true) : wellPaired (a ++ b) = true := by
  induction a with
  | nil => simpa using hb
  | cons m rest ih =>
    simp only [wellPaired, Bool.and_eq_true] at ha
    simp only [List.cons_append, wellPaired, Bool.and_eq_true]
    exact ⟨okHead_append m rest b ha.1, ih ha.2⟩

/-- Processing one model reply preserves the pairing invariant: whatever the
reply contains, the messages `get_chat_response` appends before leaving the
loop or re-invoking the model keep the transcript well-paired. -/
theorem scanReply_wellPaired (sessions : List (String × Server)) :
    ∀ (bs : List RespBlock) (acc : List Block) (history : List Msg),
      wellPaired history = true →
      (∀ x ∈ acc, toolUseOf x = none) →
      (∀ h2, scanReply sessions history acc bs = StepResult.done h2 →
        wellPaired h2 = true) ∧
      (∀ h2 d, scanReply sessions history acc bs = StepResult.next h2 d →
        wellPaired h2 = true) := by
  intro bs
  induction bs with
  | nil =>
    intro acc history hw hacc
    constructor
    · intro h2 hdone
      simp only [scanReply] at hdone
      by_cases hae : acc.isEmpty
      · rw [if_pos hae] at hdone
        injection hdone with hh
        rw [← hh]
        exact hw
      · rw [if_neg hae] at hdone
        injection hdone with hh
        rw [← hh]
        apply wellPaired_append _ _ hw
        have hmt : msgToolUses { role := Role.assistant, content := acc.reverse } = [] := by
          simp only [msgToolUses]
          rw [List.filterMap_eq_nil_iff]
          intro x hx
          exact hacc x (List.mem_reverse.mp hx)
        simp [wellPaired, okHead, hmt]
    · intro h2 d hnext
      simp only [scanReply] at hnext
      by_cases hae : acc.isEmpty
      · rw [if_pos hae] at hnext
        exact StepResult.noConfusion hnext
      · rw [if_neg hae] at hnext
        exact StepResult.noConfusion hnext
  | cons bhd btl ih =>
    intro acc history hw hacc
    cases bhd with
    | text s =>
      have hacc2 : ∀ x ∈ Block.textB s :: acc, toolUseOf x = none := by
        intro x hx
        rcases List.mem_cons.mp hx with rfl | hx2
        · rfl
        · exact hacc x hx2
      simpa only [scanReply] using ih (Block.textB s :: acc) history hw hacc2
    | toolUse id name input =>
      rcases hpair : use_tool sessions name input id with ⟨res, tr⟩
      constructor
      · intro h2 hdone
        simp only [scanReply, hpair] at hdone
        cases res with
        | error e => exact StepResult.noConfusion hdone
        | ok result => exact StepResult.noConfusion hdone
      · intro h2 d hnext
        simp only [scanReply, hpair] at hnext
        cases res with
        | error e => exact StepResult.noConfusion hnext
        | ok result =>
          injection hnext with hh hd
          rw [← hh]
          apply wellPaired_append _ _ hw
          have hnil : List.filterMap toolUseOf acc = [] :=
            List.filterMap_eq_nil_iff.mpr (fun x hx => hacc x hx)
          simp [wellPaired, okHead, isResultMsgFor, msgToolUses, toolUseOf, hnil]

/-- Runs of the conversation loop preserve the pairing invariant. -/
theorem runEngine_wellPaired (sessions : List (String × Server)) :
    ∀ (script : List (List RespBlock)) (history : List Msg) (h : List Msg),
      wellPaired history = true →
      (runEngine sessions script history).1 = Except.ok h →
      wellPaired h = true := by
  intro script
  induction script with
  | nil =>
    intro history h hw hrun
    simp [runEngine] at hrun
  | cons r rest ih =>
    intro history h hw hrun
    cases hscan : scanReply sessions history [] r with
    | done h2 =>
      have hget := (scanReply_wellPaired sessions r [] history hw
        (by intro x hx; cases hx)).1 h2 hscan
      simp only [runEngine, hscan] at hrun
      injection hrun with hh
      rw [← hh]
      exact hget
    | next h2 d =>
      have hget := (scanReply_wellPaired sessions r [] history hw
        (by intro x hx; cases hx)).2 h2 d hscan
      simp only [runEngine, hscan] at hrun
      exact ih h2 h hget hrun
    | failed e d =>
      simp only [runEngine, hscan] at hrun
      exact Except.noConfusion hrun

/-- Claim C1: starting from a well-paired prior conversation, every
successful run of `get_chat_response` yields a well-paired transcript —
each tool_use block the engine appends sits in an assistant message with
exactly that one tool call, immediately followed (before the next model
call) by exactly one tool-result message with the same call id, and the
terminal assistant message introduces no unpaired tool_use. -/
theorem transcript_pairing (sessions : List (String × Server))
    (script : List (List RespBlock)) (prior : List Msg) (query : String) (h : List Msg)
    (hwp : wellPaired prior = true)
    (hrun : (get_chat_response sessions script prior query).1 = Except.ok h) :
    wellPaired h = true := by
  have hw2 : wellPaired
      (prior ++ [{ role := Role.user, content := [Block.textB query] }]) = true := by
    apply wellPaired_append _ _ hwp
    simp [wellPaired, okHead, msgToolUses, toolUseOf]
  simp only [get_chat_response] at hrun
  exact runEngine_wellPaired sessions script _ h hw2 hrun

/-- Witness for C1: the concrete one-tool-then-text run produces the
well-paired transcript `demoHistory`. -/
theorem transcript_pairing_witness : wellPaired demoHistory = true :=
  transcript_pairing demoSessions demoScript [] "hi" demoHistory rfl rfl

/-- Scanning a reply whose first tool_use is `(name, input, id)` dispatches
exactly that call: the assistant message carries the accumulated text, the
preceding text segments and that single tool_use; its result message
follows; segments after the first tool_use are never reached. -/
theorem scanReply_first_toolUse (sessions : List (String × Server))
    (name input id : String) (res : CallToolResult)
    (hok : (use_tool sessions name input id).1 = Except.ok res) :
    ∀ (bs : List RespBlock) (acc : List Block) (history : List Msg),
      firstToolUse bs = some (name, input, id) →
      scanReply sessions history acc bs =
        StepResult.next
          (history ++
            [{ role := Role.assistant,
               content := acc.reverse ++ textsBefore bs ++ [Block.toolUseB id name input] },
             { role := Role.user, content := [Block.toolResultB id res.content] }])
          (name, input, id) := by
  intro bs
  induction bs with
  | nil => intro acc history hfu; simp [firstToolUse] at hfu
  | cons bhd btl ih =>
    intro acc history hfu
    cases bhd with
    | text s =>
      have hfu2 : firstToolUse btl = some (name, input, id) := hfu
      have hstep : scanReply sessions history acc (RespBlock.text s :: btl) =
          scanReply sessions history (Block.textB s :: acc) btl := rfl
      rw [hstep, ih (Block.textB s :: acc) history hfu2]
      simp [textsBefore, List.append_assoc]
    | toolUse id2 name2 input2 =>
      simp only [firstToolUse, Option.some.injEq, Prod.mk.injEq] at hfu
      obtain ⟨rfl, rfl, rfl⟩ := hfu
      rcases hpair : use_tool sessions name2 input2 id2 with ⟨res0, tr0⟩
      have hres : res0 = Except.ok res := by
        rw [hpair] at hok
        exact hok
      subst hres
      simp only [scanReply, hpair]
      simp [textsBefore]

/-- Claim C5: for every model reply whose first tool_use segment is
`(name, input, id)` and dispatches successfully, the engine dispatches
exactly that first segment (the dispatch trace of the round contributes the
single triple), appends its result to the transcript, and re-invokes the
model on the remaining script; no later tool_use segment of the same reply
is dispatched in that round. -/
theorem one_tool_per_round (sessions : List (String × Server))
    (r : List RespBlock) (rest : List (List RespBlock)) (history : List Msg)
    (name input id : String) (res : CallToolResult)
    (hfu : firstToolUse r = some (name, input, id))
    (hok : (use_tool sessions name input id).1 = Except.ok res) :
    runEngine sessions (r :: rest) history =
      ((runEngine sessions rest
          (history ++
            [{ role := Role.assistant,
               content := textsBefore r ++ [Block.toolUseB id name input] },
             { role := Role.user, content := [Block.toolResultB id res.content] }])).1,
        (name, input, id) ::
          (runEngine sessions rest
            (history ++
              [{ role := Role.assistant,
                 content := textsBefore r ++ [Block.toolUseB id name input] },
               { role := Role.user, content := [Block.toolResultB id res.content] }])).2) := by
  have hscan := scanReply_first_toolUse sessions name input id res hok r [] history hfu
  simp only [runEngine, hscan]
  simp

/-- Witness for C5: a reply with text, a first tool_use of `do_task`, and a
second tool_use of an (unregistered) `ghost` tool: only `do_task` is
dispatched, its result is appended, and the model is re-invoked. -/
theorem one_tool_per_round_witness :
    runEngine demoSessions
        [[RespBlock.text "t", RespBlock.toolUse "t1" "do_task" "a1",
          RespBlock.toolUse "t2" "ghost" "a2"], [RespBlock.text "done"]] [] =
      ((runEngine demoSessions [[RespBlock.text "done"]]
          [{ role := Role.assistant,
             content := [Block.textB "t", Block.toolUseB "t1" "do_task" "a1"] },
           { role := Role.user,
             content := [Block.toolResultB "t1" [MContent.text [54, 53, 48, 48, 48]]] }]).1,
        ("do_task", "a1", "t1") ::
          (runEngine demoSessions [[RespBlock.text "done"]]
            [{ role := Role.assistant,
               content := [Block.textB "t", Block.toolUseB "t1" "do_task" "a1"] },
             { role := Role.user,
               content := [Block.toolResultB "t1" [MContent.text [54, 53, 48, 48, 48]]] }]).2) := by
  exact one_tool_per_round demoSessions
    [RespBlock.text "t", RespBlock.toolUse "t1" "do_task" "a1",
      RespBlock.toolUse "t2" "ghost" "a2"]
    [[RespBlock.text "done"]] [] "do_task" "a1" "t1" demoRes rfl rfl
